import Mathlib

/-!
Verification of the porto container-lifecycle engine (container.cpp, client.cpp)
against its natural-language specification.

The embedding models the container registry as an index-based forest:
containers are numbered 0, 1, ..., n-1 in registration order, the root is
index 0, and `parent i < i` for every non-root container (parents are always
registered before their children, as enforced by TContainer::Create).
Loops of the form `for (ct = Parent; ct; ct = ct->Parent)` are embedded as
fuel-indexed structural recursions where the fuel starts at the node index;
since the parent index strictly decreases, the fuel never runs out, and the
fuel-0 fallback coincides with the no-parent exit of the loop.
-/

namespace Porto

/-- EContainerState from the source. -/
inductive EContainerState where
  | Stopped
  | Dead
  | Running
  | Paused
  | Meta
  | Destroyed
deriving DecidableEq, Repr

/-- The error kinds used by the modelled code paths (EError enum). -/
inductive EError where
  | Success
  | Unknown
  | InvalidValue
  | InvalidState
  | InvalidProperty
  | ContainerAlreadyExists
  | ContainerDoesNotExist
  | Permission
  | NotSupported
  | ResourceNotAvailable
  | Busy
  | Queued
deriving DecidableEq, Repr

/-- EAccessLevel from the source, in increasing order of privilege. -/
inductive EAccessLevel where
  | None
  | ReadOnly
  | ChildOnly
  | Normal
  | SuperUser
  | Internal
deriving DecidableEq, Repr

namespace EAccessLevel

/-- Numeric rank of an access level (the enum's underlying integer). -/
def rank : EAccessLevel → Nat
  | .None => 0
  | .ReadOnly => 1
  | .ChildOnly => 2
  | .Normal => 3
  | .SuperUser => 4
  | .Internal => 5

/-- `a ≤ b` on access levels, as the C++ enum comparison. -/
def le (a b : EAccessLevel) : Bool := a.rank ≤ b.rank

/-- `std::min` on access levels. -/
def min (a b : EAccessLevel) : EAccessLevel := if le a b then a else b

end EAccessLevel

/-- The container registry: a forest of container records indexed by
registration order.  Field names follow the TContainer members they embed.
`parent 0 = 0` encodes the root's missing parent back-reference. -/
structure Reg where
  n : Nat
  parent : Nat → Nat
  state : Nat → EContainerState
  runningChildren : Nat → Int
  locked : Nat → Int
  accessLevel : Nat → EAccessLevel
  taskPid : Nat → Nat
  exitStatus : Nat → Int
  oomKilled : Nat → Bool
  deathTime : Nat → Nat
  frozen : Nat → Bool
  hasFreezer : Nat → Bool

/-- Well-formed topology: non-root containers have a parent with a smaller
index (parents are registered before children); the root is index 0. -/
def ParentWf (r : Reg) : Prop := ∀ i, 0 < i → r.parent i < i

/-- Fuel-indexed walk for TContainer::UpdateRunningChildren: add `diff` to the
counter of node `i` and recurse into the parent while one exists. -/
def updateChainGo (parent : Nat → Nat) (diff : Int) :
    Nat → Nat → (Nat → Int) → (Nat → Int)
  | fuel, i, f =>
    let f' : Nat → Int := fun j => if j = i then f j + diff else f j
    match fuel with
    | 0 => f'
    | fuel' + 1 => if parent i < i then updateChainGo parent diff fuel' (parent i) f' else f'

/-- TContainer::UpdateRunningChildren applied at node `i`: adds `diff` to `i`
and to every ancestor of `i` up to the root. -/
def updateChain (parent : Nat → Nat) (i : Nat) (diff : Int) (f : Nat → Int) : Nat → Int :=
  updateChainGo parent diff i i f

/-- Fuel-indexed ancestor test: does `c` occur on the parent chain of `d`
(including `d` itself)? -/
def isAncOrSelfGo (parent : Nat → Nat) (c : Nat) : Nat → Nat → Bool
  | fuel, d =>
    if c = d then true
    else match fuel with
      | 0 => false
      | fuel' + 1 => if parent d < d then isAncOrSelfGo parent c fuel' (parent d) else false

/-- `c` is an ancestor of `d` or `d` itself (so `d` is in the subtree of `c`). -/
def isAncOrSelf (parent : Nat → Nat) (c d : Nat) : Bool :=
  isAncOrSelfGo parent c d d

/-- TContainer::SetState: no-op when the state is unchanged; otherwise bump
the RunningChildren counters of self and all ancestors by +1 on a transition
into Running and by -1 on a transition out of Running, then store the state.
(NotifyWaiters has no effect on the modelled fields.) -/
def setState (r : Reg) (t : Nat) (ns : EContainerState) : Reg :=
  if r.state t = ns then r
  else
    let rc' :=
      if ns = EContainerState.Running then
        updateChain r.parent t 1 r.runningChildren
      else if r.state t = EContainerState.Running then
        updateChain r.parent t (-1) r.runningChildren
      else r.runningChildren
    { r with state := fun j => if j = t then ns else r.state j, runningChildren := rc' }

/-- Number of containers with index below `m` that lie in the subtree of `c`
(including `c`) and are in state Running. -/
def countRunningUnder (r : Reg) (c : Nat) : Nat → Nat
  | 0 => 0
  | m + 1 =>
    countRunningUnder r c m +
      (if isAncOrSelf r.parent c m ∧ r.state m = EContainerState.Running then 1 else 0)

/-- The counter invariant actually maintained by the code: RunningChildren of
`c` counts the Running containers in the subtree of `c`, `c` included. -/
def RcInv (r : Reg) : Prop :=
  ∀ c, c < r.n → r.runningChildren c = (countRunningUnder r c r.n : Int)

/-- Does `c` have a strict descendant in state Running (used to evaluate the
spec's "Meta with running descendants")? -/
def hasRunningDescendant (r : Reg) (c : Nat) : Bool :=
  (List.range r.n).any fun e =>
    e ≠ c && isAncOrSelf r.parent c e && r.state e == EContainerState.Running

/-- The spec's formula for the counter: the number of strict descendants of
`c` whose state is Running, or Meta with running descendants. -/
def specRunningChildren (r : Reg) (c : Nat) : Nat :=
  ((List.range r.n).filter fun d =>
    d ≠ c && isAncOrSelf r.parent c d &&
      (r.state d == EContainerState.Running ||
       (r.state d == EContainerState.Meta && hasRunningDescendant r d))).length

/-- If `c` is on the chain of `d` then `c ≤ d` (the chain only descends). -/
theorem isAncOrSelfGo_le {parent : Nat → Nat} {c : Nat} :
    ∀ {fuel d : Nat}, isAncOrSelfGo parent c fuel d = true → c ≤ d := by
  intro fuel
  induction fuel with
  | zero =>
    intro d h
    rw [isAncOrSelfGo] at h
    by_cases hc : c = d
    · omega
    · simp [hc] at h
  | succ fuel ih =>
    intro d h
    rw [isAncOrSelfGo] at h
    by_cases hc : c = d
    · omega
    · simp only [hc, if_false] at h
      by_cases hp : parent d < d
      · simp only [hp, if_true] at h
        have := ih h
        omega
      · simp [hp] at h

/-- The fuel argument is irrelevant once it is at least the node index. -/
theorem isAncOrSelfGo_fuel {parent : Nat → Nat} {c : Nat} :
    ∀ {fuel fuel' d : Nat}, d ≤ fuel → d ≤ fuel' →
      isAncOrSelfGo parent c fuel d = isAncOrSelfGo parent c fuel' d := by
  intro fuel
  induction fuel with
  | zero =>
    intro fuel' d hd hd'
    have hd0 : d = 0 := by omega
    subst hd0
    rw [isAncOrSelfGo.eq_def, isAncOrSelfGo.eq_def]
    by_cases hc : c = 0
    · simp [hc]
    · simp only [hc, if_false]
      have hp : ¬ parent 0 < 0 := by omega
      cases fuel' with
      | zero => rfl
      | succ m => simp [hp]
  | succ fuel ih =>
    intro fuel' d hd hd'
    rw [isAncOrSelfGo.eq_def, isAncOrSelfGo.eq_def]
    by_cases hc : c = d
    · simp [hc]
    · simp only [hc, if_false]
      by_cases hp : parent d < d
      · simp only [hp, if_true]
        cases fuel' with
        | zero =>
          have : d = 0 := by omega
          omega
        | succ m =>
          simp only [hp, if_true]
          exact ih (by omega) (by omega)
      · cases fuel' with
        | zero => simp [hp]
        | succ m => simp [hp]


/-- Pointwise effect of the UpdateRunningChildren walk: node `j` gains `diff`
exactly when `j` lies on the ancestor chain of `i` (including `i`). -/
theorem updateChainGo_apply {parent : Nat → Nat} {diff : Int} :
    ∀ {fuel i : Nat}, i ≤ fuel → ∀ (f : Nat → Int) (j : Nat),
      updateChainGo parent diff fuel i f j =
        f j + (if isAncOrSelfGo parent j fuel i then diff else 0) := by
  intro fuel
  induction fuel with
  | zero =>
    intro i hi f j
    have hi0 : i = 0 := by omega
    subst hi0
    rw [updateChainGo.eq_def, isAncOrSelfGo.eq_def]
    by_cases hj : j = 0
    · simp [hj]
    · simp [hj]
  | succ fuel ih =>
    intro i hi f j
    rw [updateChainGo.eq_def, isAncOrSelfGo.eq_def]
    by_cases hp : parent i < i
    · simp only [hp, if_true]
      rw [ih (by omega)]
      by_cases hj : j = i
      · have hanc : isAncOrSelfGo parent i fuel (parent i) = false := by
          cases h : isAncOrSelfGo parent i fuel (parent i) with
          | false => rfl
          | true =>
            exfalso
            have hle := isAncOrSelfGo_le h
            omega
        simp [hj, hanc]
      · simp [hj]
    · simp only [hp, if_false]
      by_cases hj : j = i <;> simp [hj]

/-- `updateChain` characterized through `isAncOrSelf`. -/
theorem updateChain_apply {parent : Nat → Nat} {diff : Int} (i : Nat)
    (f : Nat → Int) (j : Nat) :
    updateChain parent i diff f j =
      f j + (if isAncOrSelf parent j i then diff else 0) := by
  exact updateChainGo_apply (Nat.le_refl i) f j

/-- Effect of one SetState on the Running-count of every subtree: the count
at `c` moves by one exactly when the changed node lies under `c` and the
transition enters/leaves Running. -/
theorem countRunningUnder_setState (r : Reg) (t : Nat) (ns : EContainerState)
    (hne : r.state t ≠ ns) :
    ∀ (c m : Nat),
      (countRunningUnder (setState r t ns) c m : Int) =
        (countRunningUnder r c m : Int) +
          (if t < m ∧ isAncOrSelf r.parent c t then
            (if ns = EContainerState.Running then 1 else 0) -
              (if r.state t = EContainerState.Running then 1 else 0)
           else 0) := by
  intro c m
  have hparent : (setState r t ns).parent = r.parent := by
    rw [setState]
    simp [hne]
  have hstate : ∀ j, (setState r t ns).state j = if j = t then ns else r.state j := by
    intro j
    rw [setState]
    simp [hne]
  induction m with
  | zero => simp [countRunningUnder]
  | succ m ihm =>
    rw [countRunningUnder, countRunningUnder]
    push_cast
    rw [ihm, hparent, hstate]
    by_cases hmt : m = t
    · subst hmt
      have hm : (m < m + 1 ∧ isAncOrSelf r.parent c m) ↔ isAncOrSelf r.parent c m = true := by
        constructor
        · intro h; exact h.2
        · intro h; exact ⟨by omega, h⟩
      by_cases hanc : isAncOrSelf r.parent c m
      · have hmm : ¬ m < m := by omega
        simp only [if_pos rfl, hanc, and_true, true_and]
        by_cases h1 : ns = EContainerState.Running <;>
          by_cases h2 : r.state m = EContainerState.Running <;>
          simp [h1, h2, hmm] <;> omega
      · simp [hanc]
    · have hj : (m = t) = False := by simp [hmt]
      simp only [hj, if_false]
      by_cases hlt : t < m
      · have h1 : (t < m + 1) = True := by simp; omega
        have h2 : (t < m) = True := by simp [hlt]
        simp only [h1, h2, true_and]
        omega
      · have h1 : (t < m + 1) ↔ (m = t ∨ t < m) := by omega
        have h2 : (t < m + 1) = False := by simp; omega
        have h3 : (t < m) = False := by simp [hlt]
        simp only [h2, h3, false_and, if_false]
        omega

/-- Amended claim C1, preservation half: the invariant "RunningChildren(c)
equals the number of Running containers in the subtree of c, c included" is
preserved by every SetState transition. -/
theorem rcInv_setState (r : Reg) (t : Nat) (ns : EContainerState)
    (ht : t < r.n) (hinv : RcInv r) : RcInv (setState r t ns) := by
  by_cases hne : r.state t = ns
  · rw [setState]
    simp only [hne, if_pos rfl]
    simpa [hne] using hinv
  · intro c hc
    have hn : (setState r t ns).n = r.n := by
      rw [setState]; simp [hne]
    rw [hn] at hc
    have hrc : (setState r t ns).runningChildren c =
        r.runningChildren c +
          (if isAncOrSelf r.parent c t then
            (if ns = EContainerState.Running then 1 else 0) -
              (if r.state t = EContainerState.Running then 1 else 0)
           else 0) := by
      unfold setState
      rw [if_neg hne]
      dsimp only
      by_cases h1 : ns = EContainerState.Running
      · have h2 : ¬ r.state t = EContainerState.Running := by
          rw [h1] at hne; exact hne
        rw [if_pos h1, updateChain_apply]
        by_cases hanc : isAncOrSelf r.parent c t <;> simp [h1, h2, hanc]
      · rw [if_neg h1]
        by_cases h2 : r.state t = EContainerState.Running
        · rw [if_pos h2, updateChain_apply]
          by_cases hanc : isAncOrSelf r.parent c t <;> simp [h1, h2, hanc]
        · rw [if_neg h2]
          by_cases hanc : isAncOrSelf r.parent c t <;> simp [h1, h2, hanc]
    rw [hn, hrc, countRunningUnder_setState r t ns hne c r.n, hinv c hc]
    have htn : (t < r.n) = True := by simp [ht]
    simp only [htn, true_and]


/-- SetState never changes the registry size. -/
theorem setState_n (r : Reg) (t : Nat) (ns : EContainerState) :
    (setState r t ns).n = r.n := by
  unfold setState
  by_cases h : r.state t = ns
  · rw [if_pos h]
  · rw [if_neg h]

/-- A freshly created registry: every container Stopped (the state assigned on
create), every RunningChildren counter zero. -/
def initReg (n : Nat) (parent : Nat → Nat) : Reg where
  n := n
  parent := parent
  state := fun _ => EContainerState.Stopped
  runningChildren := fun _ => 0
  locked := fun _ => 0
  accessLevel := fun _ => EAccessLevel.Normal
  taskPid := fun _ => 0
  exitStatus := fun _ => 0
  oomKilled := fun _ => false
  deathTime := fun _ => 0
  frozen := fun _ => false
  hasFreezer := fun _ => true

/-- Apply a sequence of SetState transitions. -/
def applySetStates (r : Reg) : List (Nat × EContainerState) → Reg
  | [] => r
  | (t, ns) :: rest => applySetStates (setState r t ns) rest

theorem countRunningUnder_initReg (n : Nat) (parent : Nat → Nat) (c : Nat) :
    ∀ m, countRunningUnder (initReg n parent) c m = 0 := by
  intro m
  induction m with
  | zero => rfl
  | succ m ih => rw [countRunningUnder, ih]; simp [initReg]

theorem rcInv_initReg (n : Nat) (parent : Nat → Nat) : RcInv (initReg n parent) := by
  intro c _
  rw [countRunningUnder_initReg]
  rfl

theorem applySetStates_n (steps : List (Nat × EContainerState)) :
    ∀ r : Reg, (applySetStates r steps).n = r.n := by
  induction steps with
  | nil => intro r; rfl
  | cons p rest ih =>
    intro r
    obtain ⟨t, ns⟩ := p
    rw [applySetStates, ih, setState_n]

theorem rcInv_applySetStates (steps : List (Nat × EContainerState)) :
    ∀ r : Reg, RcInv r → (∀ p ∈ steps, p.1 < r.n) → RcInv (applySetStates r steps) := by
  induction steps with
  | nil => intro r h _; exact h
  | cons p rest ih =>
    intro r h hlt
    obtain ⟨t, ns⟩ := p
    rw [applySetStates]
    have ht : t < r.n := hlt (t, ns) (by simp)
    refine ih (setState r t ns) (rcInv_setState r t ns ht h) ?_
    intro q hq
    rw [setState_n]
    exact hlt q (List.mem_cons_of_mem _ hq)

/-- Claim C1, amended: after any sequence of SetState transitions from a fresh
registry, RunningChildren(c) equals the number of containers in the subtree of
c (c itself included) whose state is exactly Running.  Containers in state
Meta contribute nothing, and only transitions into or out of Running move the
counters. -/
theorem C1_runningChildren_counts_running_subtree (n : Nat) (parent : Nat → Nat)
    (steps : List (Nat × EContainerState)) (hsteps : ∀ p ∈ steps, p.1 < n) :
    RcInv (applySetStates (initReg n parent) steps) := by
  exact rcInv_applySetStates steps (initReg n parent) (rcInv_initReg n parent) hsteps

/-- Witness for C1: a root with a Meta child holding a Running grandchild
satisfies the proved invariant. -/
theorem C1_runningChildren_counts_running_subtree_witness :
    RcInv (applySetStates (initReg 3 (fun i => i - 1))
      [(1, EContainerState.Meta), (2, EContainerState.Running)]) := by
  exact C1_runningChildren_counts_running_subtree 3 (fun i => i - 1)
    [(1, EContainerState.Meta), (2, EContainerState.Running)] (by decide)

/-- Registry reached by starting a Meta container (index 1, child of the
root 0) and then a Running container (index 2, child of 1). -/
def c1ExampleReg : Reg :=
  applySetStates (initReg 3 (fun i => i - 1))
    [(1, EContainerState.Meta), (2, EContainerState.Running)]

/-- Counterexample to C1 as stated: in the reached registry the root's
RunningChildren counter is 1, but the spec's formula (strict descendants in
Running or Meta-with-running-descendants) gives 2: the Meta container with a
running descendant contributes nothing to its ancestors' counters in the code. -/
theorem C1_counterexample :
    c1ExampleReg.runningChildren 0 = 1 ∧
    specRunningChildren c1ExampleReg 0 = 2 ∧
    ¬ (∀ c, c < c1ExampleReg.n →
        c1ExampleReg.runningChildren c = (specRunningChildren c1ExampleReg c : Int)) := by
  decide

/-- The ancestor scan in TContainer::Lock's busy test, from a strict ancestor
`i` downward-to-root: `busy = busy || ct->Locked < 0`. -/
def ancWriteLockedGo (parent : Nat → Nat) (locked : Nat → Int) : Nat → Nat → Bool
  | fuel, i =>
    (locked i < 0) ||
      match fuel with
      | 0 => false
      | fuel' + 1 => if parent i < i then ancWriteLockedGo parent locked fuel' (parent i) else false

/-- Some strict ancestor of `x` holds a write lock (`Locked < 0`). -/
def ancWriteLocked (parent : Nat → Nat) (locked : Nat → Int) (x : Nat) : Bool :=
  if parent x < x then ancWriteLockedGo parent locked x (parent x) else false

/-- The busy condition of TContainer::Lock:
`Locked && (Locked < 0 || !shared)` on the container itself, or a write lock
on any strict ancestor. -/
def lockBusy (r : Reg) (x : Nat) (shared : Bool) : Bool :=
  (!(r.locked x == 0) && (decide (r.locked x < 0) || !shared)) ||
    ancWriteLocked r.parent r.locked x

/-- Granting the lock: `Locked += shared ? 1 : -1` on the container and
`Locked++` on every strict ancestor. -/
def lockGrant (r : Reg) (x : Nat) (shared : Bool) : Reg :=
  let l1 : Nat → Int := fun j =>
    if j = x then r.locked j + (if shared then 1 else -1) else r.locked j
  let l2 : Nat → Int :=
    if r.parent x < x then updateChainGo r.parent 1 x (r.parent x) l1 else l1
  { r with locked := l2 }

/-- TContainer::Lock with `try_lock = true`: fail on a destroyed container,
return Busy without touching any counter when the busy condition holds,
otherwise grant.  (The blocking variant only differs by waiting on the
condition variable until the same busy condition clears, so the granted-state
shape is identical.) -/
def tryLock (r : Reg) (x : Nat) (shared : Bool) : Option EError × Reg :=
  if r.state x = EContainerState.Destroyed then (some EError.ContainerDoesNotExist, r)
  else if lockBusy r x shared then (some EError.Busy, r)
  else (none, lockGrant r x shared)

/-- TContainer::Unlock: `Locked += (Locked > 0) ? -1 : 1` on the container and
`Locked--` on every strict ancestor. -/
def unlock (r : Reg) (x : Nat) : Reg :=
  let l1 : Nat → Int := fun j =>
    if j = x then r.locked j + (if 0 < r.locked j then -1 else 1) else r.locked j
  let l2 : Nat → Int :=
    if r.parent x < x then updateChainGo r.parent (-1) x (r.parent x) l1 else l1
  { r with locked := l2 }

/-- If `a` is on the scanned chain and write-locked, the busy scan sees it. -/
theorem ancWriteLockedGo_of_anc {parent : Nat → Nat} {locked : Nat → Int} :
    ∀ {fuel i a : Nat}, isAncOrSelfGo parent a fuel i = true → locked a < 0 →
      ancWriteLockedGo parent locked fuel i = true := by
  intro fuel
  induction fuel with
  | zero =>
    intro i a h hl
    rw [isAncOrSelfGo.eq_def] at h
    rw [ancWriteLockedGo.eq_def]
    by_cases hai : a = i
    · rw [← hai]
      simp [hl]
    · simp [hai] at h
  | succ fuel ih =>
    intro i a h hl
    rw [isAncOrSelfGo.eq_def] at h
    rw [ancWriteLockedGo.eq_def]
    by_cases hai : a = i
    · rw [← hai]
      simp [hl]
    · simp only [hai, if_false] at h
      by_cases hp : parent i < i
      · simp only [hp, if_true] at h
        have := ih h hl
        simp [hp, this]
      · simp [hp] at h

/-- A write-locked strict ancestor makes the container busy for any mode. -/
theorem ancWriteLocked_of_strictAnc {parent : Nat → Nat} {locked : Nat → Int}
    {x a : Nat} (hne : a ≠ x) (hanc : isAncOrSelf parent a x = true)
    (hl : locked a < 0) : ancWriteLocked parent locked x = true := by
  rw [isAncOrSelf, isAncOrSelfGo.eq_def] at hanc
  simp only [hne, if_false] at hanc
  rw [ancWriteLocked]
  cases hx : x with
  | zero =>
    rw [hx] at hanc
    simp at hanc
  | succ m =>
    rw [hx] at hanc
    simp only at hanc
    by_cases hp : parent (m + 1) < m + 1
    · simp only [hp, if_true] at hanc ⊢
      have hfuel : isAncOrSelfGo parent a (m + 1) (parent (m + 1)) = true := by
        rw [@isAncOrSelfGo_fuel parent a (m + 1) m (parent (m + 1)) (by omega) (by omega)]
        exact hanc
      exact ancWriteLockedGo_of_anc hfuel hl
    · simp [hp] at hanc

/-- Claim C2: a write try-lock is granted only when the container itself has a
zero lock counter (no readers, no writer) and no strict ancestor holds a write
lock; a read try-lock is granted only when no strict ancestor holds a write
lock; and a try-lock that returns Busy leaves every lock counter unchanged. -/
theorem C2_hierarchical_lock (r : Reg) (x : Nat) :
    ((tryLock r x false).1 = none →
      r.locked x = 0 ∧
        ∀ a, a ≠ x → isAncOrSelf r.parent a x = true → 0 ≤ r.locked a) ∧
    ((tryLock r x true).1 = none →
      ∀ a, a ≠ x → isAncOrSelf r.parent a x = true → 0 ≤ r.locked a) ∧
    (∀ s, (tryLock r x s).1 = some EError.Busy → (tryLock r x s).2 = r) := by
  refine ⟨?_, ?_, ?_⟩
  · intro hgrant
    rw [tryLock] at hgrant
    by_cases hd : r.state x = EContainerState.Destroyed
    · simp [hd] at hgrant
    · simp only [hd, if_false] at hgrant
      by_cases hb : lockBusy r x false = true
      · simp [hb] at hgrant
      · have hancF : ancWriteLocked r.parent r.locked x = false := by
          cases h : ancWriteLocked r.parent r.locked x
          · rfl
          · exfalso
            apply hb
            rw [lockBusy]
            simp [h]
        have h0 : r.locked x = 0 := by
          by_contra h0
          apply hb
          rw [lockBusy]
          simp [h0]
        refine ⟨h0, ?_⟩
        intro a hne hanc
        by_cases hl : r.locked a < 0
        · exfalso
          have htrue := ancWriteLocked_of_strictAnc hne hanc hl
          rw [htrue] at hancF
          simp at hancF
        · omega
  · intro hgrant
    rw [tryLock] at hgrant
    by_cases hd : r.state x = EContainerState.Destroyed
    · simp [hd] at hgrant
    · simp only [hd, if_false] at hgrant
      by_cases hb : lockBusy r x true = true
      · simp [hb] at hgrant
      · intro a hne hanc
        by_cases hl : r.locked a < 0
        · exfalso
          apply hb
          rw [lockBusy]
          have htrue := ancWriteLocked_of_strictAnc hne hanc hl
          simp [htrue]
        · omega
  · intro s hbusy
    rw [tryLock] at hbusy ⊢
    by_cases hd : r.state x = EContainerState.Destroyed
    · simp [hd] at hbusy
    · simp only [hd, if_false] at hbusy ⊢
      by_cases hb : lockBusy r x s = true
      · simp [hb]
      · simp [hb] at hbusy

/-- A registry whose root is write-locked. -/
def lockedRootReg : Reg :=
  { initReg 2 (fun i => i - 1) with locked := fun j => if j = 0 then -1 else 0 }

/-- Witness for C2: with the root write-locked, a read try-lock on its child
returns Busy and the registry is unchanged. -/
theorem C2_hierarchical_lock_witness :
    (tryLock lockedRootReg 1 true).1 = some EError.Busy ∧
      (tryLock lockedRootReg 1 true).2 = lockedRootReg :=
  ⟨by decide, (C2_hierarchical_lock lockedRootReg 1).2.2 true (by decide)⟩

/-- VirtMode values. -/
inductive EVirtMode where
  | App
  | OS
deriving DecidableEq, Repr

/-- glibc WIFEXITED on a raw wait status: low seven bits are zero. -/
def wifexited (status : Nat) : Bool := status % 128 == 0

/-- glibc WEXITSTATUS on a raw wait status: bits 8..15. -/
def wexitstatus (status : Nat) : Nat := (status / 256) % 256

/-- The fatal-signal detection in TContainer::Exit: under portoinit
(isolate and app mode), a normal exit whose code lies strictly between 128
and 128+SIGRTMIN is folded back to the signal number; every other status is
kept as is. -/
def exitTranslateStatus (isolate : Bool) (virtMode : EVirtMode)
    (sigrtmin status : Nat) : Nat :=
  if isolate && virtMode == EVirtMode.App && wifexited status &&
      decide (128 < wexitstatus status) &&
      decide (wexitstatus status < 128 + sigrtmin) then
    wexitstatus status - 128
  else status

/-- The per-container fields touched by TContainer::Exit and the subsequent
Reap of the exiting container itself. -/
structure ExitCt where
  state : EContainerState
  isolate : Bool
  virtMode : EVirtMode
  exitStatus : Nat
  oomKilled : Bool
  taskPid : Nat
deriving DecidableEq, Repr

/-- TContainer::Exit restricted to the exiting container: return unchanged if
already Stopped; force the OOM flag if the eventfd fired or memcg failcnt is
non-zero; record the (possibly translated) exit status; then Reap clears the
task pid, sets the OOM flag, and moves Meta to Stopped and others to Dead.
The recursion into strict descendants only re-runs Reap on them and never
touches ExitStatus of the exiting container. -/
def exitCt (c : ExitCt) (sigrtmin status : Nat) (fdHasEvent : Bool)
    (failcnt : Nat) (oomKilled : Bool) : ExitCt :=
  if c.state = EContainerState.Stopped then c
  else
    let oom := if fdHasEvent || !(failcnt == 0) then true else oomKilled
    { c with
      exitStatus := exitTranslateStatus c.isolate c.virtMode sigrtmin status,
      oomKilled := if oom then true else c.oomKilled,
      taskPid := 0,
      state := if c.state = EContainerState.Meta then EContainerState.Stopped
               else EContainerState.Dead }

/-- Claim C3, amended: for an app-mode isolated container whose task exited
normally, the recorded ExitStatus is the signal number `code - 128` exactly
when the exit code lies strictly between 128 and 128+SIGRTMIN; for every exit
code outside that open interval the raw status is recorded unchanged. -/
theorem C3_exit_status_translation (c : ExitCt) (sigrtmin status : Nat)
    (fdev : Bool) (failcnt : Nat) (oom : Bool)
    (hstate : c.state ≠ EContainerState.Stopped) (hiso : c.isolate = true)
    (hvm : c.virtMode = EVirtMode.App) (hexited : wifexited status = true) :
    (128 < wexitstatus status → wexitstatus status < 128 + sigrtmin →
      (exitCt c sigrtmin status fdev failcnt oom).exitStatus = wexitstatus status - 128) ∧
    (¬ (128 < wexitstatus status ∧ wexitstatus status < 128 + sigrtmin) →
      (exitCt c sigrtmin status fdev failcnt oom).exitStatus = status) := by
  constructor
  · intro h1 h2
    rw [exitCt]
    rw [if_neg hstate]
    rw [exitTranslateStatus]
    simp [hiso, hvm, hexited, h1, h2]
  · intro hout
    rw [exitCt]
    rw [if_neg hstate]
    rw [exitTranslateStatus]
    by_cases h1 : 128 < wexitstatus status
    · have h2 : ¬ wexitstatus status < 128 + sigrtmin := fun hc => hout ⟨h1, hc⟩
      simp [h2]
    · simp [h1]

/-- A running app-mode isolated container about to exit. -/
def c3Ct : ExitCt :=
  { state := EContainerState.Running, isolate := true, virtMode := EVirtMode.App,
    exitStatus := 0, oomKilled := false, taskPid := 42 }

/-- Witness for C3: exit code 130 (raw status 130*256) is translated to
signal 2, with SIGRTMIN = 34 as in glibc. -/
theorem C3_exit_status_translation_witness :
    (exitCt c3Ct 34 33280 false 0 false).exitStatus = wexitstatus 33280 - 128 ∧
      wexitstatus 33280 - 128 = 2 :=
  ⟨(C3_exit_status_translation c3Ct 34 33280 false 0 false (by decide) rfl rfl
      (by decide)).1 (by decide) (by decide), by decide⟩

/-- Counterexample to C3 as stated: with SIGRTMIN = 34, exit code 163 is
greater than 128+SIGRTMIN = 162, yet the code records the raw status 41728
unchanged (the guard is `WEXITSTATUS < 128 + SIGRTMIN`, not `>`); conversely
exit code 130 lies outside the claim's range but is rewritten to 2. -/
theorem C3_counterexample :
    (exitCt c3Ct 34 41728 false 0 false).exitStatus = 41728 ∧
      wexitstatus 41728 = 163 ∧ 128 + 34 < 163 ∧ (41728 : Nat) ≠ 163 - 128 ∧
    (exitCt c3Ct 34 33280 false 0 false).exitStatus = 2 ∧
      wexitstatus 33280 = 130 ∧ ¬ 128 + 34 < 130 ∧ (2 : Nat) ≠ 33280 := by
  decide

/-- Outcome of each fallible step of TContainer::Start, in program order.
`none` means the step succeeded; `some e` that it failed with `e`. -/
structure StartOutcome where
  preChecks : Option EError
  prepareResources : Option EError
  parseNetConfig : Option EError
  prepareNetwork : Option EError
  applyDynamic : Option EError
  netCapCheck : Option EError
  prepareTask : Option EError
  taskStart : Option EError
  save : Option EError
deriving DecidableEq, Repr

/-- The container flags that select branches inside TContainer::Start. -/
structure StartFlags where
  isRoot : Bool
  isMeta : Bool
  isolate : Bool
deriving DecidableEq, Repr

/-- TContainer::Start, control flow only: first component is the returned
error, second whether FreeResources ran during this invocation (either inside
a failing PrepareResources or through the `error:` label).  The `return
error;` statements after ParseNetConfig and ApplyDynamicProperties and the
final `return Save();` bypass the `error:` label. -/
def start (fl : StartFlags) (o : StartOutcome) : Option EError × Bool :=
  match o.preChecks with
  | some e => (some e, false)
  | none =>
  match o.prepareResources with
  | some e => (some e, true)
  | none =>
  match o.parseNetConfig with
  | some e => (some e, false)
  | none =>
  match o.prepareNetwork with
  | some e => (some e, true)
  | none =>
  match (if fl.isRoot then none else o.applyDynamic) with
  | some e => (some e, false)
  | none =>
  match o.netCapCheck with
  | some e => (some e, true)
  | none =>
  match (if !fl.isMeta || fl.isolate then o.prepareTask else none) with
  | some e => (some e, true)
  | none =>
  match (if !fl.isMeta || fl.isolate then o.taskStart else none) with
  | some e => (some e, true)
  | none =>
  match o.save with
  | some e => (some e, false)
  | none => (none, false)

/-- Claim C4, amended: when Start fails after PrepareResources succeeded,
FreeResources runs before the error is returned for failures of
PrepareNetwork, the host-network permission checks, PrepareTask and the task
launch; but failures of ParseNetConfig, ApplyDynamicProperties and the final
Save return their error without calling FreeResources. -/
theorem C4_free_resources_on_start_failure (fl : StartFlags) (o : StartOutcome) :
    (o.preChecks = none → o.prepareResources = none → o.parseNetConfig = none →
      (fl.isRoot = false → o.applyDynamic = none) → o.save = none →
      ∀ e, (start fl o).1 = some e → (start fl o).2 = true) ∧
    (∀ e, o.preChecks = none → o.prepareResources = none →
      o.parseNetConfig = some e → start fl o = (some e, false)) ∧
    (∀ e, o.preChecks = none → o.prepareResources = none →
      o.parseNetConfig = none → o.prepareNetwork = none → fl.isRoot = false →
      o.applyDynamic = some e → start fl o = (some e, false)) ∧
    (∀ e, o.preChecks = none → o.prepareResources = none →
      o.parseNetConfig = none → o.prepareNetwork = none →
      (fl.isRoot = false → o.applyDynamic = none) → o.netCapCheck = none →
      o.prepareTask = none → o.taskStart = none →
      o.save = some e → start fl o = (some e, false)) := by
  obtain ⟨q1, q2, q3, q4, q5, q6, q7, q8, q9⟩ := o
  obtain ⟨r1, r2, r3⟩ := fl
  refine ⟨?_, ?_, ?_, ?_⟩
  · intro h1 h2 h3 h4 h5 e herr
    simp only at h1 h2 h3 h4 h5 herr ⊢
    subst h1
    subst h2
    subst h3
    subst h5
    revert herr
    cases r1 with
    | true =>
      cases q4 <;> cases q5 <;> cases q6 <;> cases q7 <;> cases q8 <;>
        cases r2 <;> cases r3 <;> simp [start]
    | false =>
      have h5q : q5 = none := h4 rfl
      subst h5q
      cases q4 <;> cases q6 <;> cases q7 <;> cases q8 <;>
        cases r2 <;> cases r3 <;> simp [start]
  · intro e h1 h2 h3
    simp only at h1 h2 h3 ⊢
    subst h1
    subst h2
    subst h3
    simp [start]
  · intro e h1 h2 h3 h4 h5 h6
    simp only at h1 h2 h3 h4 h5 h6 ⊢
    subst h1
    subst h2
    subst h3
    subst h4
    subst h5
    subst h6
    simp [start]
  · intro e h1 h2 h3 h4 h5 h6 h7 h8 h9
    simp only at h1 h2 h3 h4 h5 h6 h7 h8 h9 ⊢
    subst h1
    subst h2
    subst h3
    subst h4
    subst h6
    subst h7
    subst h8
    subst h9
    cases r1 with
    | true => cases r2 <;> cases r3 <;> simp [start]
    | false =>
      have h5q : q5 = none := h5 rfl
      subst h5q
      cases r2 <;> cases r3 <;> simp [start]

/-- Start step outcomes where only PrepareNetwork fails. -/
def c4NetFail : StartOutcome :=
  { preChecks := none, prepareResources := none, parseNetConfig := none,
    prepareNetwork := some EError.Unknown, applyDynamic := none,
    netCapCheck := none, prepareTask := none, taskStart := none, save := none }

/-- Witness for C4: a PrepareNetwork failure reaches the `error:` label, so
FreeResources runs. -/
theorem C4_free_resources_on_start_failure_witness :
    (start ⟨false, false, true⟩ c4NetFail).2 = true :=
  (C4_free_resources_on_start_failure ⟨false, false, true⟩ c4NetFail).1
    rfl rfl rfl (fun _ => rfl) rfl EError.Unknown (by decide)

/-- Start step outcomes where only ParseNetConfig fails. -/
def c4ParseFail : StartOutcome :=
  { preChecks := none, prepareResources := none,
    parseNetConfig := some EError.Unknown, prepareNetwork := none,
    applyDynamic := none, netCapCheck := none, prepareTask := none,
    taskStart := none, save := none }

/-- Counterexample to C4 as stated: a ParseNetConfig failure occurs after
PrepareResources succeeded, yet Start returns the error without calling
FreeResources (`return error;` instead of `goto error;`). -/
theorem C4_counterexample :
    (start ⟨false, false, true⟩ c4ParseFail).1 = some EError.Unknown ∧
      (start ⟨false, false, true⟩ c4ParseFail).2 = false := by
  decide

/-- The character class accepted inside container path components
(cases `a..z`, `A..Z`, `0..9`, `_`, `-`, `@`, `:`, `.` of the switch). -/
def validChar (c : Char) : Bool :=
  ('a' ≤ c && c ≤ 'z') || ('A' ≤ c && c ≤ 'Z') || ('0' ≤ c && c ≤ '9') ||
    c == '_' || c == '-' || c == '@' || c == ':' || c == '.'

/-- The component separators of the scanning loop: the switch treats `/` and
the NUL terminator alike (`case '/': case '\x5cx00':`), and a NUL embedded in a
std::string takes the same branch as the terminating one. -/
def isSepChar (c : Char) : Bool := c == '/' || c == Char.ofNat 0

/-- SELF_CONTAINER. -/
def selfName : List Char := ['s', 'e', 'l', 'f']

/-- DOT_CONTAINER. -/
def dotName : List Char := ['.']

/-- The checks applied to a finished component at a separator: not empty, not
longer than CONTAINER_NAME_MAX, not the reserved names `self` and `.`. -/
def checkComp (nameMax : Nat) (comp : List Char) : Bool :=
  !comp.isEmpty && decide (comp.length ≤ nameMax) &&
    !(comp == selfName) && !(comp == dotName)

/-- The scanning loop of TContainer::ValidName, with `comp` the characters
accumulated since the last separator; the empty-list case is the iteration at
`i == name.length()` where `name[i]` reads the terminating NUL. -/
def scanName (nameMax : Nat) : List Char → List Char → Bool
  | [], comp => checkComp nameMax comp
  | c :: rest, comp =>
    if isSepChar c then checkComp nameMax comp && scanName nameMax rest []
    else if validChar c then scanName nameMax rest (comp ++ [c])
    else false

/-- TContainer::ValidName over the character list of the argument:
empty and over-long paths are rejected, a leading `/` is allowed only for the
literal root name, and otherwise the component scan decides. -/
def validName (pathMax nameMax : Nat) (name : List Char) : Bool :=
  if name.isEmpty then false
  else if pathMax < name.length then false
  else if name.head? == some '/' then name == ['/']
  else scanName nameMax name []

/-- Split a character list into components at the separators chosen by `sep`;
`cur` is the partial component accumulated so far. -/
def compsBy (sep : Char → Bool) (cur : List Char) : List Char → List (List Char)
  | [] => [cur]
  | c :: rest => if sep c then cur :: compsBy sep [] rest else compsBy sep (cur ++ [c]) rest

/-- The claim's per-component condition: non-empty, at most the maximum
component length, only characters `[A-Za-z0-9_@:.-]`, and not `self` or `.`. -/
def goodComp (nameMax : Nat) (comp : List Char) : Bool :=
  !comp.isEmpty && decide (comp.length ≤ nameMax) && comp.all validChar &&
    !(comp == selfName) && !(comp == dotName)

/-- Claim C5's acceptance condition, word for word: the literal root name, or
a non-empty name of bounded length that does not begin or end with `/` and
whose `/`-separated components all satisfy `goodComp`. -/
def claimValidName (pathMax nameMax : Nat) (name : List Char) : Bool :=
  name == ['/'] ||
    (!name.isEmpty && decide (name.length ≤ pathMax) &&
      !(name.head? == some '/') && !(name.getLast? == some '/') &&
      (compsBy (fun c => c == '/') [] name).all (goodComp nameMax))

/-- Claim C5 amended: as the claim, except that an embedded NUL character acts
as a component separator exactly like `/` ("does not end with `/`" is subsumed
by "no empty component" once trailing separators produce an empty component). -/
def amendedValidName (pathMax nameMax : Nat) (name : List Char) : Bool :=
  name == ['/'] ||
    (!name.isEmpty && decide (name.length ≤ pathMax) &&
      !(name.head? == some '/') &&
      (compsBy isSepChar [] name).all (goodComp nameMax))

/-- Valid component characters are not separators. -/
theorem validChar_not_sep {c : Char} (h : validChar c = true) : isSepChar c = false := by
  by_cases h1 : c = '/'
  · subst h1
    exact absurd h (by decide)
  · by_cases h2 : c = Char.ofNat 0
    · subst h2
      exact absurd h (by decide)
    · simp [isSepChar, h1, h2]

/-- On a component whose characters were all checked on the way, the claim's
per-component condition coincides with the separator-time checks. -/
theorem goodComp_eq_checkComp {nameMax : Nat} {comp : List Char}
    (h : comp.all validChar = true) : goodComp nameMax comp = checkComp nameMax comp := by
  rw [goodComp, checkComp, h]
  simp only [Bool.and_true]

/-- The first component produced by the splitter extends the accumulator. -/
theorem compsBy_cons_ex (sep : Char → Bool) :
    ∀ (rest cur : List Char), ∃ suf t, compsBy sep cur rest = (cur ++ suf) :: t := by
  intro rest
  induction rest with
  | nil =>
    intro cur
    exact ⟨[], [], by simp [compsBy]⟩
  | cons c rest ih =>
    intro cur
    by_cases hs : sep c = true
    · exact ⟨[], compsBy sep [] rest, by simp [compsBy, hs]⟩
    · obtain ⟨suf, t, heq⟩ := ih (cur ++ [c])
      refine ⟨[c] ++ suf, t, ?_⟩
      rw [compsBy]
      simp only [hs, if_false]
      rw [heq]
      simp

/-- The scanning loop accepts exactly when every component produced by
splitting at the separators satisfies the per-component condition. -/
theorem scanName_eq_compsBy (nameMax : Nat) :
    ∀ (rest cur : List Char), cur.all validChar = true →
      scanName nameMax rest cur = (compsBy isSepChar cur rest).all (goodComp nameMax) := by
  intro rest
  induction rest with
  | nil =>
    intro cur hcur
    rw [scanName, compsBy]
    simp [goodComp_eq_checkComp hcur]
  | cons c rest ih =>
    intro cur hcur
    rw [scanName, compsBy]
    by_cases hs : isSepChar c = true
    · rw [if_pos hs, if_pos hs]
      rw [ih [] rfl]
      simp [goodComp_eq_checkComp hcur]
    · rw [if_neg hs, if_neg hs]
      by_cases hv : validChar c = true
      · rw [if_pos hv]
        refine ih (cur ++ [c]) ?_
        simp [List.all_append, hcur, hv]
      · rw [if_neg hv]
        obtain ⟨suf, t, heq⟩ := compsBy_cons_ex isSepChar rest (cur ++ [c])
        rw [heq]
        have hall : ((cur ++ [c]) ++ suf).all validChar = false := by
          simp [List.all_append, hv]
        have hbad : goodComp nameMax ((cur ++ [c]) ++ suf) = false := by
          rw [goodComp, hall]
          simp
        rw [List.all_cons, hbad]
        simp

/-- Claim C5, amended: ValidName accepts a name iff it is the literal root
name "/" or it is non-empty, at most CONTAINER_PATH_MAX long, does not begin
with '/', and every component obtained by splitting at '/' AND at embedded
NUL characters is non-empty, at most CONTAINER_NAME_MAX long, made of
characters [A-Za-z0-9_@:.-], and distinct from "self" and ".". -/
theorem C5_validName_characterization (pathMax nameMax : Nat) (name : List Char)
    (hp : 1 ≤ pathMax) :
    validName pathMax nameMax name = amendedValidName pathMax nameMax name := by
  by_cases h0 : name = []
  · subst h0
    simp [validName, amendedValidName]
  · by_cases h1 : pathMax < name.length
    · have hne : ¬ name = ['/'] := by
        intro hc
        rw [hc] at h1
        simp at h1
        omega
      have hgt : ¬ name.length ≤ pathMax := by omega
      simp [validName, amendedValidName, h0, h1, hne, hgt]
    · have hle : name.length ≤ pathMax := by omega
      by_cases h2 : name.head? = some '/'
      · by_cases h3 : name = ['/']
        · subst h3
          simp [validName, amendedValidName]
          omega
        · simp [validName, amendedValidName, h0, h1, h2, h3]
      · have h3 : ¬ name = ['/'] := by
          intro hc
          rw [hc] at h2
          simp at h2
        have hscan := scanName_eq_compsBy nameMax name [] rfl
        have hb1 : (name == ['/']) = false := by simp [h3]
        have hb2 : name.isEmpty = false := by simp [List.isEmpty_iff, h0]
        have hb3 : (name.head? == some '/') = false := by simp [h2]
        simp [validName, amendedValidName, h0, h1, h2, h3, hle, hscan, hb1, hb2, hb3]

/-- Witness for C5: "a/b" is accepted and the characterization applies at a
concrete configuration. -/
theorem C5_validName_characterization_witness :
    validName 200 128 ['a', '/', 'b'] = amendedValidName 200 128 ['a', '/', 'b'] ∧
      validName 200 128 ['a', '/', 'b'] = true :=
  ⟨C5_validName_characterization 200 128 ['a', '/', 'b'] (by decide), by decide⟩

/-- Counterexample to C5 as stated: the name "a\x00b" (an embedded NUL, which
a std::string can carry) is accepted by ValidName — the scanning loop treats
the NUL like a component separator — but the claim's condition rejects it
because NUL is not in the allowed character class of its '/'-separated
component. -/
theorem C5_counterexample :
    validName 200 128 ['a', Char.ofNat 0, 'b'] = true ∧
      claimValidName 200 128 ['a', Char.ofNat 0, 'b'] = false := by
  decide

/-- TContainer::ParentName: everything before the last '/', or the root name
when there is no '/'. -/
def parentName (name : List Char) : List Char :=
  let rev := name.reverse
  if rev.any (fun c => c == '/') then
    ((rev.dropWhile (fun c => !(c == '/'))).drop 1).reverse
  else ['/']

/-- Lookup in the name-keyed registry map (name, level of the record). -/
def lookupName (reg : List (List Char × Nat)) (name : List Char) : Option Nat :=
  match reg with
  | [] => none
  | (k, v) :: rest => if k == name then some v else lookupName rest name

/-- The configuration constants entering TContainer::Create:
CONTAINER_PATH_MAX, CONTAINER_NAME_MAX, config max_total,
NR_SERVICE_CONTAINERS, CONTAINER_LEVEL_MAX (values live in headers outside
the excerpt, so they stay symbolic). -/
structure CreateCfg where
  pathMax : Nat
  nameMax : Nat
  maxTotal : Nat
  nrService : Nat
  levelMax : Nat
deriving DecidableEq, Repr

/-- TContainer::Create over the name-keyed registry: the check sequence is
ValidName, duplicate name, total-count limit, parent lookup (level limit and
CanControl inside), then id allocation / owner-loading / Save (collapsed into
`idAndSaveOk`; their failure paths release the id and register nothing), and
finally Register, which links the record under its parent's level + 1. -/
def create (cfg : CreateCfg) (reg : List (List Char × Nat)) (name : List Char)
    (canControlParent : Bool) (idAndSaveOk : Bool) :
    Option EError × List (List Char × Nat) :=
  if validName cfg.pathMax cfg.nameMax name = false then
    (some EError.InvalidValue, reg)
  else if (lookupName reg name).isSome then
    (some EError.ContainerAlreadyExists, reg)
  else if cfg.maxTotal + cfg.nrService ≤ reg.length then
    (some EError.ResourceNotAvailable, reg)
  else
    match lookupName reg (parentName name) with
    | some lvl =>
      if lvl = cfg.levelMax then (some EError.InvalidValue, reg)
      else if !canControlParent then (some EError.Permission, reg)
      else if !idAndSaveOk then (some EError.Unknown, reg)
      else (none, (name, lvl + 1) :: reg)
    | none =>
      if name == ['/'] then
        if !idAndSaveOk then (some EError.Unknown, reg)
        else (none, (name, 0) :: reg)
      else (some EError.ContainerDoesNotExist, reg)

/-- Claim C6: Create fails with ContainerAlreadyExists when the (valid) name
is registered; with ResourceNotAvailable when the registry already holds
max_total + NR_SERVICE_CONTAINERS records; with ContainerDoesNotExist when
the parent of a non-root name is absent; with an error when the parent sits
at CONTAINER_LEVEL_MAX; and every failure leaves the registry unchanged. -/
theorem C6_create_failure_modes (cfg : CreateCfg) (reg : List (List Char × Nat))
    (name : List Char) (cc ok : Bool) :
    (validName cfg.pathMax cfg.nameMax name = true →
      (lookupName reg name).isSome = true →
      (create cfg reg name cc ok).1 = some EError.ContainerAlreadyExists) ∧
    (validName cfg.pathMax cfg.nameMax name = true →
      lookupName reg name = none → cfg.maxTotal + cfg.nrService ≤ reg.length →
      (create cfg reg name cc ok).1 = some EError.ResourceNotAvailable) ∧
    (validName cfg.pathMax cfg.nameMax name = true →
      lookupName reg name = none → reg.length < cfg.maxTotal + cfg.nrService →
      lookupName reg (parentName name) = none → ¬ name = ['/'] →
      (create cfg reg name cc ok).1 = some EError.ContainerDoesNotExist) ∧
    (validName cfg.pathMax cfg.nameMax name = true →
      lookupName reg name = none → reg.length < cfg.maxTotal + cfg.nrService →
      ∀ lvl, lookupName reg (parentName name) = some lvl → lvl = cfg.levelMax →
      (create cfg reg name cc ok).1 = some EError.InvalidValue) ∧
    (∀ e, (create cfg reg name cc ok).1 = some e →
      (create cfg reg name cc ok).2 = reg) := by
  refine ⟨?_, ?_, ?_, ?_, ?_⟩
  · intro hv hdup
    rw [create, hv]
    simp [hdup]
  · intro hv hdup hsz
    rw [create, hv]
    simp [hdup, hsz]
  · intro hv hdup hsz hpar hroot
    rw [create, hv]
    have hsz' : ¬ cfg.maxTotal + cfg.nrService ≤ reg.length := by omega
    simp [hdup, hsz', hpar, hroot]
  · intro hv hdup hsz lvl hpar hlvl
    rw [create, hv]
    have hsz' : ¬ cfg.maxTotal + cfg.nrService ≤ reg.length := by omega
    simp [hdup, hsz', hpar, hlvl]
  · intro e herr
    rw [create] at herr ⊢
    by_cases hv : validName cfg.pathMax cfg.nameMax name = false
    · simp [hv]
    · simp only [hv, if_false] at herr ⊢
      by_cases hdup : (lookupName reg name).isSome = true
      · simp [hdup]
      · simp only [hdup, if_false] at herr ⊢
        by_cases hsz : cfg.maxTotal + cfg.nrService ≤ reg.length
        · simp [hsz]
        · simp only [hsz, if_false] at herr ⊢
          cases hpar : lookupName reg (parentName name) with
          | some lvl =>
            simp only [hpar] at herr ⊢
            by_cases hlvl : lvl = cfg.levelMax
            · simp [hlvl]
            · simp only [hlvl, if_false] at herr ⊢
              by_cases hcc : cc
              · simp only [hcc] at herr ⊢
                by_cases hok : ok
                · simp [hok] at herr
                · simp [hok]
              · simp [hcc]
          | none =>
            simp only [hpar] at herr ⊢
            by_cases hroot : (name == ['/']) = true
            · simp only [hroot, if_true] at herr ⊢
              by_cases hok : ok
              · simp [hok] at herr
              · simp [hok]
            · simp [hroot]

/-- A registry holding the root and a container "a". -/
def c6Reg : List (List Char × Nat) := [(['/'], 0), (['a'], 1)]

/-- Witness for C6: creating "a" again fails with ContainerAlreadyExists and
leaves the registry unchanged. -/
theorem C6_create_failure_modes_witness :
    (create ⟨200, 128, 10, 3, 7⟩ c6Reg ['a'] true true).1 =
        some EError.ContainerAlreadyExists ∧
      (create ⟨200, 128, 10, 3, 7⟩ c6Reg ['a'] true true).2 = c6Reg :=
  ⟨(C6_create_failure_modes ⟨200, 128, 10, 3, 7⟩ c6Reg ['a'] true true).1
      (by decide) (by decide),
    (C6_create_failure_modes ⟨200, 128, 10, 3, 7⟩ c6Reg ['a'] true true).2.2.2.2
      EError.ContainerAlreadyExists
      ((C6_create_failure_modes ⟨200, 128, 10, 3, 7⟩ c6Reg ['a'] true true).1
        (by decide) (by decide))⟩

/-- TContainer::Terminate for container `i`, with the kernel's cgroup killing
abstracted as succeeding (it changes no modelled field): the root refuses;
without the freezer controller a live task cannot be terminated; a frozen
cgroup refuses. -/
def terminate (r : Reg) (i : Nat) : Option EError :=
  if i = 0 then some EError.Permission
  else if r.hasFreezer i = false then
    (if !(r.taskPid i == 0) then some EError.NotSupported else none)
  else if r.frozen i then some EError.Permission
  else none

/-- TContainer::StopOne: an already Stopped container is returned untouched
with Success; otherwise the tasks are terminated (root containers skip this),
the runtime fields Task.Pid, DeathTime, ExitStatus and OomKilled are cleared,
and SetState(Stopped) runs (FreeResources and Save touch no modelled field). -/
def stopOne (r : Reg) (i : Nat) : Option EError × Reg :=
  if r.state i = EContainerState.Stopped then (none, r)
  else
    match (if i = 0 then none else terminate r i) with
    | some e => (some e, r)
    | none =>
      let r1 := { r with
        taskPid := fun j => if j = i then 0 else r.taskPid j,
        deathTime := fun j => if j = i then 0 else r.deathTime j,
        exitStatus := fun j => if j = i then 0 else r.exitStatus j,
        oomKilled := fun j => if j = i then false else r.oomKilled j }
      (none, setState r1 i EContainerState.Stopped)

/-- TContainer::Subtree() lists every descendant before its ancestors; since
a child always has a larger index than its parent, decreasing index order is
such an enumeration. -/
def subtreeRev (r : Reg) (c : Nat) : List Nat :=
  (List.range r.n).reverse.filter (fun d => isAncOrSelf r.parent c d)

/-- The `for (auto &ct: Subtree()) ct->StopOne(deadline)` loop: stop at the
first error. -/
def stopList (r : Reg) : List Nat → Option EError × Reg
  | [] => (none, r)
  | i :: rest =>
    match stopOne r i with
    | (some e, r') => (some e, r')
    | (none, r') => stopList r' rest

/-- Does the kernel report the freezer of `c` as freezing because of an
ancestor (IsParentFreezing)? Modelled as: some strict ancestor is frozen. -/
def ancFrozen (r : Reg) (c : Nat) : Bool :=
  (List.range r.n).any fun a => a ≠ c && isAncOrSelf r.parent a c && r.frozen a

/-- TContainer::Stop: without a freezer controller a live task fails with
NotSupported; a frozen subtree is first killed and thawed (refused with
InvalidState when the parent is freezing); then StopOne runs over the whole
subtree, descendants first (UpdateSoftLimit only touches cgroup knobs and its
error is only logged). -/
def stop (r : Reg) (c : Nat) : Option EError × Reg :=
  if r.hasFreezer c = false then
    if !(r.taskPid c == 0) then (some EError.NotSupported, r)
    else stopList r (subtreeRev r c)
  else if r.frozen c then
    if ancFrozen r c then (some EError.InvalidState, r)
    else
      let r' := { r with
        frozen := fun j => if isAncOrSelf r.parent c j then false else r.frozen j }
      stopList r' (subtreeRev r' c)
  else stopList r (subtreeRev r c)

/-- Stopping a list of already Stopped containers changes nothing. -/
theorem stopList_stopped (l : List Nat) :
    ∀ (r : Reg), (∀ i ∈ l, r.state i = EContainerState.Stopped) →
      stopList r l = (none, r) := by
  induction l with
  | nil => intro r _; rfl
  | cons i rest ih =>
    intro r h
    have hi : r.state i = EContainerState.Stopped := h i (by simp)
    rw [stopList, stopOne, if_pos hi]
    exact ih r (fun j hj => h j (List.mem_cons_of_mem _ hj))

/-- Claim C7: Stop on a container whose subtree is Stopped (and hence, by the
stopped-holds-no-resources invariant, not frozen and without a task) returns
Success and leaves the registry — its states, runtime fields and records —
entirely unchanged. -/
theorem C7_stop_idempotent_on_stopped (r : Reg) (c : Nat)
    (hall : ∀ d, d < r.n → isAncOrSelf r.parent c d = true →
      r.state d = EContainerState.Stopped)
    (hfr : r.frozen c = false) (hpid : r.taskPid c = 0) :
    stop r c = (none, r) := by
  have hlist : stopList r (subtreeRev r c) = (none, r) := by
    refine stopList_stopped (subtreeRev r c) r ?_
    intro i hi
    rw [subtreeRev] at hi
    have hmem := List.mem_filter.mp hi
    have hrange : i < r.n := by
      have := List.mem_reverse.mp hmem.1
      exact List.mem_range.mp this
    exact hall i hrange (by simpa using hmem.2)
  rw [stop]
  by_cases hfz : r.hasFreezer c = false
  · rw [if_pos hfz, hpid]
    simpa using hlist
  · rw [if_neg hfz, hfr]
    simpa using hlist

/-- Witness for C7: stopping the already Stopped root of a fresh two-container
registry returns Success and changes nothing. -/
theorem C7_stop_idempotent_on_stopped_witness :
    stop (initReg 2 (fun i => i - 1)) 0 = (none, initReg 2 (fun i => i - 1)) :=
  C7_stop_idempotent_on_stopped (initReg 2 (fun i => i - 1)) 0
    (fun _ _ _ => rfl) rfl rfl

/-- EEventType from the source. -/
inductive EEventKind where
  | Exit
  | RotateLogs
  | Respawn
  | OOM
  | WaitTimeout
  | DestroyWeak
deriving DecidableEq, Repr

/-- A queued TEvent: the kind plus the fields the dispatcher reads (the
container weak pointer, the Exit pid/status pair, the WaitTimeout waiter
weak pointer; unset fields are `none`/zero exactly as in a freshly
constructed TEvent of another kind). -/
structure TEvent where
  kind : EEventKind
  targetCt : Option Nat
  exitPid : Nat
  exitStatus : Nat
  waiter : Option Nat
deriving DecidableEq, Repr

/-- The per-container fields TContainer::Event reads. -/
structure EvCt where
  id : Nat
  state : EContainerState
  waitPid : Nat
  isWeak : Bool
  expired : Bool
deriving DecidableEq, Repr

/-- The observable work performed by one dispatch of TContainer::Event:
which containers got an Exit/OOM/Respawn delivery, which pids were acked,
which waiters woke, which containers had stdout/stderr rotated, how often the
RemoveDead statistic was bumped, whether network statistics were refreshed,
and which containers were destroyed. -/
structure EvWorld where
  cts : List EvCt
  oomDelivered : List Nat
  respawned : List Nat
  exitDelivered : List (Nat × Nat)
  acked : List Nat
  wokenWaiters : List Nat
  rotated : List Nat
  removeDeadStat : Nat
  netRefreshed : Bool
  destroyed : List Nat
deriving DecidableEq, Repr

/-- Case OOM: deliver Exit(SIGKILL, oom=true) to the target container. -/
def oomWork (w : EvWorld) : Option Nat → EvWorld
  | some ct => { w with oomDelivered := ct :: w.oomDelivered }
  | none => w

/-- Case Respawn: re-run Respawn on the target container. -/
def respawnWork (w : EvWorld) : Option Nat → EvWorld
  | some ct => { w with respawned := ct :: w.respawned }
  | none => w

/-- Case Exit, first half: deliver the status to the container whose
WaitTask.Pid matches (the loop breaks after the first match). -/
def exitWork (w : EvWorld) (pid status : Nat) : EvWorld :=
  match w.cts.find? (fun c => c.waitPid == pid) with
  | some c => { w with exitDelivered := (c.id, status) :: w.exitDelivered }
  | none => w

/-- Case Exit, second half: AckExitStatus(pid). -/
def ackWork (w : EvWorld) (pid : Nat) : EvWorld :=
  { w with acked := pid :: w.acked }

/-- Case WaitTimeout: wake the waiter if its weak pointer is still alive. -/
def waitTimeoutWork (w : EvWorld) : Option Nat → EvWorld
  | some wtr => { w with wokenWaiters := wtr :: w.wokenWaiters }
  | none => w

/-- Case DestroyWeak: destroy the target container (subtree destruction and
registry unlinking collapse to removing the record here). -/
def destroyWeakWork (w : EvWorld) : Option Nat → EvWorld
  | some ct =>
    { w with cts := w.cts.filter (fun c => !(c.id == ct)),
             destroyed := ct :: w.destroyed }
  | none => w

/-- Case RotateLogs: bump the RemoveDead statistic for every expired Dead
container (the FIXME in the source: they are counted, not destroyed), rotate
stdout/stderr of every Running container, then refresh network statistics. -/
def rotateLogsWork (w : EvWorld) : EvWorld :=
  { w with
    removeDeadStat :=
      w.removeDeadStat + (w.cts.filter (fun c => c.expired)).length,
    rotated :=
      ((w.cts.filter (fun c => c.state == EContainerState.Running)).map
        (fun c => c.id)) ++ w.rotated,
    netRefreshed := true }

/-- TContainer::Event as written: the switch has no `break` between the Exit
and WaitTimeout cases, nor between the DestroyWeak and RotateLogs cases, so
an Exit dispatch falls through into the (empty-waiter) WaitTimeout work and a
DestroyWeak dispatch falls through into the full RotateLogs work. -/
def containerEvent (w : EvWorld) (e : TEvent) : EvWorld :=
  match e.kind with
  | EEventKind.OOM => oomWork w e.targetCt
  | EEventKind.Respawn => respawnWork w e.targetCt
  | EEventKind.Exit =>
    waitTimeoutWork (ackWork (exitWork w e.exitPid e.exitStatus) e.exitPid) e.waiter
  | EEventKind.WaitTimeout => waitTimeoutWork w e.waiter
  | EEventKind.DestroyWeak => rotateLogsWork (destroyWeakWork w e.targetCt)
  | EEventKind.RotateLogs => rotateLogsWork w

/-- A world with a Running container 1, a weak Stopped container 2 and an
expired Dead container 3. -/
def c8World : EvWorld :=
  { cts := [⟨1, EContainerState.Running, 100, false, false⟩,
            ⟨2, EContainerState.Stopped, 0, true, false⟩,
            ⟨3, EContainerState.Dead, 0, false, true⟩],
    oomDelivered := [], respawned := [], exitDelivered := [], acked := [],
    wokenWaiters := [], rotated := [], removeDeadStat := 0,
    netRefreshed := false, destroyed := [] }

/-- The DestroyWeak event for container 2. -/
def c8Event : TEvent :=
  { kind := EEventKind.DestroyWeak, targetCt := some 2, exitPid := 0,
    exitStatus := 0, waiter := none }

/-- Claim C8 evaluated on the code: dispatching DestroyWeak for container 2
destroys it, but — through the missing `break` — ALSO rotates the logs of the
Running container 1, bumps the RemoveDead statistic for the expired container
3 and refreshes network statistics, i.e. it performs the RotateLogs work the
claim says happens only for a RotateLogs event. -/
theorem C8_destroyWeak_fallthrough :
    (containerEvent c8World c8Event).destroyed = [2] ∧
      (containerEvent c8World c8Event).rotated = [1] ∧
      (containerEvent c8World c8Event).removeDeadStat = 1 ∧
      (containerEvent c8World c8Event).netRefreshed = true ∧
      c8World.rotated = [] ∧ c8World.removeDeadStat = 0 ∧
      c8World.netRefreshed = false := by
  decide

/-- The minimum-access-level walk of TClient::IdentifyClient from a strict
ancestor `p` down to the root, `acc` the minimum collected so far. -/
def chainMinFrom (parent : Nat → Nat) (lvl : Nat → EAccessLevel) :
    Nat → Nat → EAccessLevel → EAccessLevel
  | fuel, p, acc =>
    let acc' := EAccessLevel.min acc (lvl p)
    match fuel with
    | 0 => acc'
    | fuel' + 1 =>
      if parent p < p then chainMinFrom parent lvl fuel' (parent p) acc' else acc'

/-- `AccessLevel = ct->AccessLevel` followed by
`for (p = ct->Parent; p; p = p->Parent) AccessLevel = min(AccessLevel, p->AccessLevel)`. -/
def chainMinLevel (r : Reg) (ct : Nat) : EAccessLevel :=
  if r.parent ct < ct then
    chainMinFrom r.parent r.accessLevel ct (r.parent ct) (r.accessLevel ct)
  else r.accessLevel ct

/-- TClient::IdentifyClient from the point where the client's container `ct`
has been located: compute the chain minimum, refuse with Permission when it
is None or when the container is neither Running nor Meta, then derive the
final level from the resulting credential — a root credential in Normal is
promoted to SuperUser, a credential outside the porto group is clamped to
ReadOnly.  Returns the error and the assigned AccessLevel. -/
def identifyClient (r : Reg) (ct : Nat) (credIsRoot credInPortoGroup : Bool) :
    Option EError × EAccessLevel :=
  let lvl := chainMinLevel r ct
  if lvl = EAccessLevel.None then (some EError.Permission, lvl)
  else if ¬ (r.state ct = EContainerState.Running ∨
             r.state ct = EContainerState.Meta) then (some EError.Permission, lvl)
  else
    let lvl' :=
      if credIsRoot then
        (if lvl = EAccessLevel.Normal then EAccessLevel.SuperUser else lvl)
      else if !credInPortoGroup then
        (if EAccessLevel.le EAccessLevel.ReadOnly lvl then EAccessLevel.ReadOnly else lvl)
      else lvl
    (none, lvl')

/-- Claim C9, amended: identification fails with Permission when the minimum
of the container's and all ancestors' AccessLevels is None; on success the
assigned level is that minimum, except that a root credential with minimum
Normal is promoted to SuperUser and a non-root credential outside the porto
group is clamped to ReadOnly whenever the minimum is at least ReadOnly. -/
theorem C9_identify_access_level (r : Reg) (ct : Nat) (isRoot inGrp : Bool) :
    (chainMinLevel r ct = EAccessLevel.None →
      (identifyClient r ct isRoot inGrp).1 = some EError.Permission) ∧
    (∀ lvl, identifyClient r ct isRoot inGrp = (none, lvl) →
      (lvl = chainMinLevel r ct ∧
        ¬ (isRoot = true ∧ chainMinLevel r ct = EAccessLevel.Normal) ∧
        ¬ (isRoot = false ∧ inGrp = false ∧
            EAccessLevel.le EAccessLevel.ReadOnly (chainMinLevel r ct) = true)) ∨
      (isRoot = true ∧ chainMinLevel r ct = EAccessLevel.Normal ∧
        lvl = EAccessLevel.SuperUser) ∨
      (isRoot = false ∧ inGrp = false ∧
        EAccessLevel.le EAccessLevel.ReadOnly (chainMinLevel r ct) = true ∧
        lvl = EAccessLevel.ReadOnly)) := by
  constructor
  · intro h0
    rw [identifyClient]
    simp [h0]
  · intro lvl hok
    rw [identifyClient] at hok
    by_cases h0 : chainMinLevel r ct = EAccessLevel.None
    · simp [h0] at hok
    · simp only [h0, if_neg h0] at hok
      by_cases h1 : r.state ct = EContainerState.Running ∨
          r.state ct = EContainerState.Meta
      · simp only [h1, not_true, if_neg, if_false] at hok
        cases hr : isRoot with
        | true =>
          simp only [hr, if_true] at hok
          by_cases h2 : chainMinLevel r ct = EAccessLevel.Normal
          · right; left
            rw [if_pos h2, Prod.mk.injEq] at hok
            exact ⟨rfl, h2, hok.2.symm⟩
          · left
            rw [if_neg h2, Prod.mk.injEq] at hok
            exact ⟨hok.2.symm, by simp [h2], by simp⟩
        | false =>
          simp only [hr, Bool.false_eq_true, if_false] at hok
          cases hg : inGrp with
          | true =>
            simp only [hg, Bool.not_true, Bool.false_eq_true, if_false] at hok
            rw [Prod.mk.injEq] at hok
            left
            exact ⟨hok.2.symm, by simp, by simp [hg]⟩
          | false =>
            simp only [hg, Bool.not_false, if_true] at hok
            by_cases h2 : EAccessLevel.le EAccessLevel.ReadOnly (chainMinLevel r ct) = true
            · right; right
              rw [if_pos h2, Prod.mk.injEq] at hok
              exact ⟨rfl, rfl, h2, hok.2.symm⟩
            · left
              rw [if_neg h2, Prod.mk.injEq] at hok
              exact ⟨hok.2.symm, by simp, by simp [h2]⟩
      · simp [h1] at hok
  
/-- A one-container registry (the root, level Normal, in state Meta) whose
AccessLevel chain minimum is Normal. -/
def c9Reg : Reg :=
  { initReg 1 (fun i => i - 1) with state := fun _ => EContainerState.Meta }

/-- A registry whose root has AccessLevel None. -/
def c9NoneReg : Reg :=
  { c9Reg with accessLevel := fun _ => EAccessLevel.None }

/-- Witness for C9: a client in a container whose chain minimum is None is
refused with Permission. -/
theorem C9_identify_access_level_witness :
    (identifyClient c9NoneReg 0 false true).1 = some EError.Permission :=
  (C9_identify_access_level c9NoneReg 0 false true).1 (by decide)

/-- Counterexample to C9 as stated: for a root-credential client in a Normal
chain the assigned AccessLevel is SuperUser, not the chain minimum Normal
(client.cpp:167-169 promotes it after the minimum is computed). -/
theorem C9_counterexample :
    chainMinLevel c9Reg 0 = EAccessLevel.Normal ∧
      identifyClient c9Reg 0 true true = (none, EAccessLevel.SuperUser) ∧
      EAccessLevel.SuperUser ≠ EAccessLevel.Normal := by
  decide

/-- The per-container property store entering TContainer::SetProperty:
property values keyed by property id, plus the PropDirty bitmap. -/
structure PropCt where
  isRoot : Bool
  state : EContainerState
  vals : Nat → List Char
  dirty : Nat → Bool

/-- `prop->Set(value)`: store the value and mark the property dirty. -/
def propSet (ct : PropCt) (key : Nat) (value : List Char) : PropCt :=
  { ct with
    vals := fun q => if q = key then value else ct.vals q,
    dirty := fun q => if q = key then true else ct.dirty q }

/-- TContainer::ApplyDynamicProperties: walk the fixed list `dyn` of dynamic
properties; for each dirty one, clear the dirty bit (TestClearPropDirty) and
write it to the kernel (`kernel p` is the outcome of that write); stop at the
first failure. -/
def applyDynamicProps (kernel : Nat → Option EError) :
    List Nat → PropCt → Option EError × PropCt
  | [], ct => (none, ct)
  | p :: rest, ct =>
    if ct.dirty p then
      let ct' := { ct with dirty := fun q => if q = p then false else ct.dirty q }
      match kernel p with
      | some e => (some e, ct')
      | none => applyDynamicProps kernel rest ct'
    else applyDynamicProps kernel rest ct

/-- TContainer::SetProperty (for an existing, supported property; `setOk`
models whether the property setter accepts the new value, `saveOk` the final
Save): root containers are read-only; the value is stored; in state Running,
Meta or Paused the dynamic properties are applied, and on failure the old
value is restored (`prop->Set(oldValue)`) and the dirty bit cleared
(`TestClearPropDirty`) before the error is returned. -/
def setProperty (kernel : Nat → Option EError) (dyn : List Nat) (ct : PropCt)
    (key : Nat) (value : List Char) (setOk saveOk : Bool) :
    Option EError × PropCt :=
  if ct.isRoot then (some EError.Permission, ct)
  else
    let oldValue := ct.vals key
    if !setOk then (some EError.InvalidValue, ct)
    else
      let ct1 := propSet ct key value
      if ct.state = EContainerState.Running ∨ ct.state = EContainerState.Meta ∨
          ct.state = EContainerState.Paused then
        match applyDynamicProps kernel dyn ct1 with
        | (some e, ct2) =>
          let ct3 := propSet ct2 key oldValue
          let ct4 := { ct3 with
            dirty := fun q => if q = key then false else ct3.dirty q }
          (some e, ct4)
        | (none, ct2) =>
          if saveOk then (none, ct2) else (some EError.Unknown, ct2)
      else
        if saveOk then (none, ct1) else (some EError.Unknown, ct1)

/-- ApplyDynamicProperties never changes a property value, only dirty bits. -/
theorem applyDynamicProps_vals (kernel : Nat → Option EError) :
    ∀ (dyn : List Nat) (ct : PropCt),
      (applyDynamicProps kernel dyn ct).2.vals = ct.vals := by
  intro dyn
  induction dyn with
  | nil => intro ct; rfl
  | cons p rest ih =>
    intro ct
    rw [applyDynamicProps]
    by_cases hd : ct.dirty p
    · simp only [hd, if_pos]
      cases hk : kernel p with
      | some e => rfl
      | none => rw [ih]
    · simp only [hd, Bool.false_eq_true, if_false]
      rw [ih]

/-- Claim C10: when SetProperty stores a new value on a container in state
Running, Meta or Paused and ApplyDynamicProperties then fails, the property
is rolled back to its previous value, its dirty bit is cleared, and the error
is returned, so every property value is as before the call. -/
theorem C10_setProperty_rollback (kernel : Nat → Option EError) (dyn : List Nat)
    (ct : PropCt) (key : Nat) (value : List Char) (saveOk : Bool) (e : EError)
    (hroot : ct.isRoot = false)
    (hstate : ct.state = EContainerState.Running ∨
      ct.state = EContainerState.Meta ∨ ct.state = EContainerState.Paused)
    (happly : (applyDynamicProps kernel dyn (propSet ct key value)).1 = some e) :
    (setProperty kernel dyn ct key value true saveOk).1 = some e ∧
      (∀ q, (setProperty kernel dyn ct key value true saveOk).2.vals q = ct.vals q) ∧
      (setProperty kernel dyn ct key value true saveOk).2.dirty key = false := by
  have hvals := applyDynamicProps_vals kernel dyn (propSet ct key value)
  rw [setProperty]
  simp only [hroot, Bool.false_eq_true, if_false, Bool.not_true, hstate, if_pos]
  cases hres : applyDynamicProps kernel dyn (propSet ct key value) with
  | mk err ct2 =>
    rw [hres] at happly hvals
    simp only at happly hvals
    subst happly
    refine ⟨rfl, ?_, ?_⟩
    · intro q
      simp only [propSet]
      by_cases hq : q = key
      · simp [hq]
      · simp only [hq, if_neg hq, if_false]
        rw [hvals]
        simp [propSet, hq]
    · simp

/-- A container in state Running with every property value "x" and nothing
dirty. -/
def c10Ct : PropCt :=
  { isRoot := false, state := EContainerState.Running,
    vals := fun _ => ['x'], dirty := fun _ => false }

/-- A kernel that rejects every cgroup write. -/
def c10Kernel : Nat → Option EError := fun _ => some EError.InvalidValue

/-- Witness for C10: setting property 5 to "y" on a running container whose
cgroup write fails returns the error, restores the value "x" and leaves the
dirty bit clear. -/
theorem C10_setProperty_rollback_witness :
    (setProperty c10Kernel [5] c10Ct 5 ['y'] true true).1 =
        some EError.InvalidValue ∧
      (setProperty c10Kernel [5] c10Ct 5 ['y'] true true).2.vals 5 = ['x'] ∧
      (setProperty c10Kernel [5] c10Ct 5 ['y'] true true).2.dirty 5 = false :=
  ⟨(C10_setProperty_rollback c10Kernel [5] c10Ct 5 ['y'] true
      EError.InvalidValue rfl (Or.inl rfl) (by decide)).1,
    (C10_setProperty_rollback c10Kernel [5] c10Ct 5 ['y'] true
      EError.InvalidValue rfl (Or.inl rfl) (by decide)).2.1 5,
    (C10_setProperty_rollback c10Kernel [5] c10Ct 5 ['y'] true
      EError.InvalidValue rfl (Or.inl rfl) (by decide)).2.2⟩

end Porto
